import Mathlib

/-!
Shallow embedding of the I2S arbiter core (`internal/arbiter/arbiter.go`).

The Go code keeps a `map[string]*ServiceStatus` and mutates entries in
place under a mutex.  We model the map as a `List ServiceStatus` (the list
order models Go's iteration order; map keys are unique, which appears as a
`Nodup` hypothesis on the list of names where a proof needs it), and every
mutation as a pure state transformation.  Outbound HTTP calls are modelled
by oracles: a `LockOracle` gives the outcome of each lock/unlock call
(`none` = HTTP 200, `some msg` = network failure or non-200, carrying the
error text), and a `String → PollResponse` function gives the outcome of
each status poll.  The three protocol adapters (`lockUSBOverI2S`,
`lockUSBAudio`, generic fallback) differ only in the wire format of the
request; their effect on arbiter state is identical (success or an error
string), so a single oracle models the dispatch in `lockServiceInternal`.
-/

namespace I2S

/-- Mirrors Go `ServiceStatus` (arbiter.go lines 17-27). -/
structure ServiceStatus where
  name : String
  displayName : String
  baseURL : String
  online : Bool
  locked : Bool
  active : Bool
  priority : Int
  lastCheck : String
  error : String
deriving DecidableEq, Repr

/-- Engine-wide mutable state of the `Arbiter` struct (arbiter.go lines
30-37): the service map (as a list in iteration order) and the
`activeService` field. -/
structure Arbiter where
  services : List ServiceStatus
  activeService : String
deriving DecidableEq, Repr

/-- Outcome oracle for outbound lock/unlock HTTP calls: `none` = success
(HTTP 200), `some msg` = failure with error text `msg`.  Arguments are the
service name and the desired locked state. -/
def LockOracle : Type := String → Bool → Option String

/-- `a.services[name]` lookup (Go map indexing). -/
def getSvc (a : Arbiter) (name : String) : Option ServiceStatus :=
  a.services.find? (fun s => s.name == name)

/-- Mirrors `lockServiceInternal` (arbiter.go lines 207-235): dispatch the
lock call (modelled by the oracle), on failure record the error on the
service and return it; on success set `Locked`, clear the error, and clear
`activeService` when locking the currently active service. -/
def lockServiceInternal (lockCall : LockOracle) (a : Arbiter) (name : String)
    (lock : Bool) : Arbiter × Option String :=
  match lockCall name lock with
  | some e =>
      let svcs := a.services.map
        (fun s => if s.name == name then { s with error := e } else s)
      ({ a with services := svcs }, some e)
  | none =>
      let svcs := a.services.map
        (fun s => if s.name == name then { s with locked := lock, error := "" } else s)
      let a1 : Arbiter := { a with services := svcs }
      let a2 : Arbiter :=
        if lock && (a1.activeService == name) then { a1 with activeService := "" } else a1
      (a2, none)

/-- The effect of one lock call (with `lock = true`) on a single service
entry, as a function of the oracle outcome; used to state what the sweep
loops do to each targeted entry. -/
def lockApply (lockCall : LockOracle) (n : String) (s : ServiceStatus) : ServiceStatus :=
  if s.name == n then
    match lockCall n true with
    | some e => { s with error := e }
    | none => { s with locked := true, error := "" }
  else s

/-- Common shape of the four `for ... range a.services`-style loops that
issue best-effort lock calls (`ActivateService` lines 142-148,
`DeactivateAll` lines 168-175, `LockService` lines 193-199,
`enforceSingleUnlocked` lines 338-345): iterate over names, read the
current entry, and when `cond` holds issue `lockServiceInternal(name, true)`,
remembering the last error (only `DeactivateAll` uses the error; the other
loops discard it, i.e. take `.1` of the result). -/
def lockSweep (lockCall : LockOracle) (cond : String → ServiceStatus → Bool)
    (names : List String) (st : Arbiter × Option String) : Arbiter × Option String :=
  names.foldl
    (fun acc n =>
      match getSvc acc.1 n with
      | none => acc
      | some s =>
        if cond n s then
          match lockServiceInternal lockCall acc.1 n true with
          | (a2, some e) => (a2, some e)
          | (a2, none) => (a2, acc.2)
        else acc)
    st

/-- The `unlockedServices` collection loop of `enforceSingleUnlocked`
(arbiter.go lines 306-311): names of services with `Online && !Locked`,
in iteration order. -/
def unlockedServices (a : Arbiter) : List String :=
  (a.services.filter (fun s => s.online && !s.locked)).map (fun s => s.name)

/-- `a.services[name].Priority` (well-defined for names drawn from the
service map). -/
def priorityOf (a : Arbiter) (name : String) : Int :=
  match getSvc a name with
  | some s => s.priority
  | none => 0

/-- The lowest-priority scan of `enforceSingleUnlocked` (arbiter.go lines
328-334): running pair of (lowest priority seen, its name); a strictly
smaller priority replaces the running choice, so ties keep the earlier
name. -/
def prioFold (a : Arbiter) (init : Int × String) (l : List String) : Int × String :=
  l.foldl (fun acc n => if priorityOf a n < acc.1 then (priorityOf a n, n) else acc) init

/-- The `keepUnlocked` selection of `enforceSingleUnlocked` (arbiter.go
lines 317-335): start from the first unlocked name; if an active service
is designated, switch to it when it occurs in the list (linear search with
break); otherwise scan for the strictly lowest priority. -/
def pickKeep (a : Arbiter) (unlocked : List String) : String :=
  match unlocked with
  | [] => ""
  | first :: _ =>
    if a.activeService != "" then
      if unlocked.contains a.activeService then a.activeService else first
    else
      (prioFold a (priorityOf a first, first) unlocked).2

/-- Mirrors `enforceSingleUnlocked` (arbiter.go lines 305-347). -/
def enforceSingleUnlocked (lockCall : LockOracle) (a : Arbiter) : Arbiter :=
  let unlocked := unlockedServices a
  if 1 < unlocked.length then
    let keepUnlocked := pickKeep a unlocked
    (lockSweep lockCall (fun n _ => n != keepUnlocked) unlocked (a, none)).1
  else a

/-- Mirrors `ActivateService` (arbiter.go lines 125-158). -/
def ActivateService (lockCall : LockOracle) (a : Arbiter) (name : String) :
    Arbiter × Option String :=
  match getSvc a name with
  | none => (a, some ("service not found: " ++ name))
  | some target =>
    if !target.online then (a, some ("service is offline: " ++ name))
    else
      let a1 := (lockSweep lockCall (fun n s => n != name && s.online)
        (a.services.map (fun s => s.name)) (a, none)).1
      match lockServiceInternal lockCall a1 name false with
      | (a2, some e) => (a2, some ("failed to unlock service: " ++ e))
      | (a2, none) => ({ a2 with activeService := name }, none)

/-- Mirrors `DeactivateAll` (arbiter.go lines 161-179). -/
def DeactivateAll (lockCall : LockOracle) (a : Arbiter) : Arbiter × Option String :=
  let r := lockSweep lockCall (fun _ s => s.online)
    (a.services.map (fun s => s.name)) (a, none)
  ({ r.1 with activeService := "" }, r.2)

/-- Mirrors `LockService` (arbiter.go lines 183-203). -/
def LockService (lockCall : LockOracle) (a : Arbiter) (name : String)
    (lock : Bool) : Arbiter × Option String :=
  match getSvc a name with
  | none => (a, some ("service not found: " ++ name))
  | some _ =>
    let a1 :=
      if !lock then
        (lockSweep lockCall (fun n s => n != name && s.online && !s.locked)
          (a.services.map (fun s => s.name)) (a, none)).1
      else a
    lockServiceInternal lockCall a1 name lock

/-- Mirrors `GetActiveService` (arbiter.go lines 118-122). -/
def GetActiveService (a : Arbiter) : String :=
  a.activeService

/-- The recognized fields of a parsed status JSON object, after Go's type
assertions: `status["locked"].(bool)`, `status["state"].(string)`,
`status["active"].(bool)`; `none` models field absent or of the wrong
type. -/
structure StatusFields where
  locked : Option Bool
  state : Option String
  active : Option Bool
deriving DecidableEq, Repr

/-- A parsed status payload before the optional `data` unwrap (arbiter.go
lines 398-401): `data = some f` models a `data` field holding a JSON
object with recognized fields `f`; `top` models the recognized fields of
the top-level object. -/
structure StatusPayload where
  data : Option StatusFields
  top : StatusFields
deriving DecidableEq, Repr

/-- The `data` unwrap (arbiter.go lines 399-401): when a `data` object is
present, all further fields are read from it; otherwise from the top
level. -/
def unwrapData (p : StatusPayload) : StatusFields :=
  p.data.getD p.top

/-- Field interpretation of a successfully parsed payload (arbiter.go
lines 403-416), in source order: `locked` overwrites `Locked`; a `state`
string sets `Active` to whether it equals "playing"; an `active` bool then
overwrites `Active`. -/
def applyStatusFields (svc : ServiceStatus) (f : StatusFields) : ServiceStatus :=
  let svc1 := match f.locked with
    | some b => { svc with locked := b }
    | none => svc
  let svc2 := match f.state with
    | some st => { svc1 with active := st == "playing" }
    | none => svc1
  match f.active with
  | some b => { svc2 with active := b }
  | none => svc2

/-- Outcome of one status poll HTTP call, covering the early-return
branches of `pollServiceInternal`: `client.Get` failure (line 364),
non-200 status (line 373), `io.ReadAll` failure (line 380),
`json.Unmarshal` failure (line 389), or a parsed payload. -/
inductive PollResponse where
  | netErr (msg : String)
  | badStatus (code : Int)
  | bodyErr (msg : String)
  | jsonErr (msg : String)
  | ok (payload : StatusPayload)
deriving DecidableEq, Repr

/-- Mirrors `pollServiceInternal` (arbiter.go lines 351-424) for one
service: stamp `LastCheck`, apply the response per branch (note that the
`io.ReadAll` and `json.Unmarshal` failure branches set only `Online` and
`Error`), and on success interpret the fields and update the
active-service tracking (lines 419-423). -/
def pollServiceInternal (resp : String → PollResponse) (now : String)
    (a : Arbiter) (name : String) : Arbiter :=
  match getSvc a name with
  | none => a
  | some svc0 =>
    let svc0 := { svc0 with lastCheck := now }
    let put := fun (svcNew : ServiceStatus) =>
      let svcs := a.services.map (fun s => if s.name == name then svcNew else s)
      { a with services := svcs }
    match resp name with
    | .netErr msg => put { svc0 with online := false, active := false, error := msg }
    | .badStatus code =>
        put { svc0 with online := false, active := false,
                        error := "status code: " ++ toString code }
    | .bodyErr msg => put { svc0 with online := false, error := msg }
    | .jsonErr msg => put { svc0 with online := false, error := msg }
    | .ok payload =>
        let svc := applyStatusFields { svc0 with online := true, error := "" }
          (unwrapData payload)
        let a1 := put svc
        if svc.active && !svc.locked then { a1 with activeService := name }
        else if a1.activeService == name && !svc.active then { a1 with activeService := "" }
        else a1

/-- Mirrors `pollAllServices` (arbiter.go lines 291-301): poll every
registered service, then enforce the single-unlocked constraint. -/
def pollAllServices (resp : String → PollResponse) (lockCall : LockOracle)
    (now : String) (a : Arbiter) : Arbiter :=
  let names := a.services.map (fun s => s.name)
  enforceSingleUnlocked lockCall (names.foldl (pollServiceInternal resp now) a)

/-- Pointwise effect of `lockSweep` on one service entry, proved in
`lockSweep_services`: a targeted entry whose condition holds receives the
lock call; every other entry is untouched. -/
def sweepApply (lockCall : LockOracle) (cond : String → ServiceStatus → Bool)
    (names : List String) (s : ServiceStatus) : ServiceStatus :=
  if s.name ∈ names ∧ cond s.name s = true then lockApply lockCall s.name s else s

/-- The last element of a list of error messages, or a default when the
list is empty; describes the `lastErr` accumulation of `DeactivateAll`. -/
def lastOr : List String → Option String → Option String
  | [], e0 => e0
  | e :: rest, _ => lastOr rest (some e)

/-!  ## Lookup and frame lemmas  -/

theorem find?_map_namePreserving (F : ServiceStatus → ServiceStatus)
    (hF : ∀ s, (F s).name = s.name) (l : List ServiceStatus)
    (hnd : (l.map (fun s => s.name)).Nodup) (s : ServiceStatus) (hmem : s ∈ l) :
    (l.map F).find? (fun t => t.name == s.name) = some (F s) := by
  induction l with
  | nil => cases hmem
  | cons t ts ih =>
    simp only [List.map_cons, List.nodup_cons] at hnd
    rcases List.mem_cons.mp hmem with heq | hmem2
    · subst heq
      have hpos : ((F s).name == s.name) = true := by simp [hF]
      rw [List.map_cons,
        @List.find?_cons_of_pos _ (fun t => t.name == s.name) (F s) (ts.map F) hpos]
    · have hne : t.name ≠ s.name := by
        intro hcontra
        exact hnd.1 (hcontra ▸ List.mem_map_of_mem (fun s => s.name) hmem2)
      have hneg : ¬ ((F t).name == s.name) = true := by simp [hF, hne]
      rw [List.map_cons,
        @List.find?_cons_of_neg _ (fun t => t.name == s.name) (F t) (ts.map F) hneg]
      exact ih hnd.2 hmem2

theorem find?_self (l : List ServiceStatus)
    (hnd : (l.map (fun s => s.name)).Nodup) (s : ServiceStatus) (hmem : s ∈ l) :
    l.find? (fun t => t.name == s.name) = some s := by
  have h := find?_map_namePreserving id (fun _ => rfl) l hnd s hmem
  simpa using h

theorem find?_map_untouched (F : ServiceStatus → ServiceStatus)
    (hF : ∀ s, (F s).name = s.name) (m : String)
    (hfix : ∀ s : ServiceStatus, s.name = m → F s = s) (l : List ServiceStatus) :
    (l.map F).find? (fun t => t.name == m) = l.find? (fun t => t.name == m) := by
  induction l with
  | nil => rfl
  | cons t ts ih =>
    by_cases hp : t.name = m
    · have h1 : ((F t).name == m) = true := by simp [hF t, hp]
      have h2 : (t.name == m) = true := by simp [hp]
      rw [List.map_cons,
        @List.find?_cons_of_pos _ (fun t => t.name == m) (F t) (ts.map F) h1,
        @List.find?_cons_of_pos _ (fun t => t.name == m) t ts h2, hfix t hp]
    · have h1 : ¬ ((F t).name == m) = true := by simp [hF t, hp]
      have h2 : ¬ (t.name == m) = true := by simp [hp]
      rw [List.map_cons,
        @List.find?_cons_of_neg _ (fun t => t.name == m) (F t) (ts.map F) h1,
        @List.find?_cons_of_neg _ (fun t => t.name == m) t ts h2, ih]

theorem find?_map_put (l : List ServiceStatus) (name : String)
    (svcNew : ServiceStatus) (hnew : svcNew.name = name) (svc : ServiceStatus)
    (h : l.find? (fun t => t.name == name) = some svc) :
    (l.map (fun s => if s.name == name then svcNew else s)).find?
      (fun t => t.name == name) = some svcNew := by
  induction l with
  | nil => simp at h
  | cons t ts ih =>
    by_cases hp : t.name = name
    · have ht : (((if t.name == name then svcNew else t)).name == name) = true := by
        simp [hp, hnew]
      rw [List.map_cons,
        @List.find?_cons_of_pos _ (fun t => t.name == name)
          (if t.name == name then svcNew else t)
          (ts.map (fun s => if s.name == name then svcNew else s)) ht]
      simp [hp]
    · have h2 : ¬ (t.name == name) = true := by simp [hp]
      rw [@List.find?_cons_of_neg _ (fun t => t.name == name) t ts h2] at h
      have ht : ¬ (((if t.name == name then svcNew else t)).name == name) = true := by
        simp [hp]
      rw [List.map_cons,
        @List.find?_cons_of_neg _ (fun t => t.name == name)
          (if t.name == name then svcNew else t)
          (ts.map (fun s => if s.name == name then svcNew else s)) ht]
      exact ih h

/-!  ## Lemmas about `lockServiceInternal`  -/

theorem lockServiceInternal_services_fail (lockCall : LockOracle) (a : Arbiter)
    (n : String) (b : Bool) (e : String) (h : lockCall n b = some e) :
    ((lockServiceInternal lockCall a n b).1).services
      = a.services.map (fun s => if s.name == n then { s with error := e } else s) := by
  simp [lockServiceInternal, h]

theorem lockServiceInternal_services_ok (lockCall : LockOracle) (a : Arbiter)
    (n : String) (b : Bool) (h : lockCall n b = none) :
    ((lockServiceInternal lockCall a n b).1).services
      = a.services.map
          (fun s => if s.name == n then { s with locked := b, error := "" } else s) := by
  simp only [lockServiceInternal, h]
  split <;> rfl

theorem lockServiceInternal_snd (lockCall : LockOracle) (a : Arbiter)
    (n : String) (b : Bool) :
    (lockServiceInternal lockCall a n b).2 = lockCall n b := by
  cases h : lockCall n b with
  | none => simp [lockServiceInternal, h]
  | some e => simp [lockServiceInternal, h]

theorem lockServiceInternal_active_or (lockCall : LockOracle) (a : Arbiter)
    (n : String) (b : Bool) :
    ((lockServiceInternal lockCall a n b).1).activeService = a.activeService
    ∨ ((lockServiceInternal lockCall a n b).1).activeService = "" := by
  cases h : lockCall n b with
  | none =>
    simp only [lockServiceInternal, h]
    split
    · right; rfl
    · left; rfl
  | some e => left; simp [lockServiceInternal, h]

theorem lockServiceInternal_active_ne (lockCall : LockOracle) (a : Arbiter)
    (n : String) (b : Bool) (h : a.activeService ≠ n) :
    ((lockServiceInternal lockCall a n b).1).activeService = a.activeService := by
  cases ho : lockCall n b with
  | none => simp [lockServiceInternal, ho, h]
  | some e => simp [lockServiceInternal, ho]

theorem lockServiceInternal_active_unlock (lockCall : LockOracle) (a : Arbiter)
    (n : String) :
    ((lockServiceInternal lockCall a n false).1).activeService = a.activeService := by
  cases ho : lockCall n false with
  | none => simp [lockServiceInternal, ho]
  | some e => simp [lockServiceInternal, ho]

theorem lockServiceInternal_names (lockCall : LockOracle) (a : Arbiter)
    (n : String) (b : Bool) :
    ((lockServiceInternal lockCall a n b).1).services.map (fun s => s.name)
      = a.services.map (fun s => s.name) := by
  cases ho : lockCall n b with
  | none =>
    rw [lockServiceInternal_services_ok lockCall a n b ho, List.map_map]
    apply List.map_congr_left
    intro s _
    by_cases h : s.name = n <;> simp [h]
  | some e =>
    rw [lockServiceInternal_services_fail lockCall a n b e ho, List.map_map]
    apply List.map_congr_left
    intro s _
    by_cases h : s.name = n <;> simp [h]

/-- Entries whose name differs from the lock target are untouched. -/
theorem getSvc_lockServiceInternal_other (lockCall : LockOracle) (a : Arbiter)
    (n : String) (b : Bool) (m : String) (hm : m ≠ n) :
    getSvc ((lockServiceInternal lockCall a n b).1) m = getSvc a m := by
  cases ho : lockCall n b with
  | none =>
    show ((lockServiceInternal lockCall a n b).1).services.find? _ = _
    rw [lockServiceInternal_services_ok lockCall a n b ho]
    apply find?_map_untouched
    · intro s; by_cases h : s.name = n <;> simp [h]
    · intro s hs
      have : ¬ (s.name == n) = true := by simp [hs ▸ hm]
      simp [this]
  | some e =>
    show ((lockServiceInternal lockCall a n b).1).services.find? _ = _
    rw [lockServiceInternal_services_fail lockCall a n b e ho]
    apply find?_map_untouched
    · intro s; by_cases h : s.name = n <;> simp [h]
    · intro s hs
      have : ¬ (s.name == n) = true := by simp [hs ▸ hm]
      simp [this]

/-!  ## Lemmas about `lockSweep`  -/

theorem lockSweep_nil (lockCall : LockOracle) (cond : String → ServiceStatus → Bool)
    (st : Arbiter × Option String) : lockSweep lockCall cond [] st = st := rfl

theorem lockSweep_cons (lockCall : LockOracle) (cond : String → ServiceStatus → Bool)
    (n : String) (ns : List String) (st : Arbiter × Option String) :
    lockSweep lockCall cond (n :: ns) st
      = lockSweep lockCall cond ns
          (match getSvc st.1 n with
           | none => st
           | some s =>
             if cond n s then
               match lockServiceInternal lockCall st.1 n true with
               | (a2, some e) => (a2, some e)
               | (a2, none) => (a2, st.2)
             else st) := rfl

theorem lockSweep_step_fired (lockCall : LockOracle)
    (cond : String → ServiceStatus → Bool) (n : String) (ns : List String)
    (a : Arbiter) (e0 : Option String) (s0 : ServiceStatus)
    (hg : getSvc a n = some s0) (hc : cond n s0 = true) :
    lockSweep lockCall cond (n :: ns) (a, e0)
      = lockSweep lockCall cond ns
          ((lockServiceInternal lockCall a n true).1,
           match (lockServiceInternal lockCall a n true).2 with
           | some e => some e
           | none => e0) := by
  rw [lockSweep_cons]
  rcases h2 : lockServiceInternal lockCall a n true with ⟨a2, oe⟩
  cases oe <;> simp [hg, hc, h2]

theorem lockSweep_services (lockCall : LockOracle)
    (cond : String → ServiceStatus → Bool) (names : List String) :
    ∀ (a : Arbiter) (e0 : Option String), names.Nodup →
      (a.services.map (fun s => s.name)).Nodup →
      (lockSweep lockCall cond names (a, e0)).1.services
        = a.services.map (sweepApply lockCall cond names) := by
  induction names with
  | nil =>
    intro a e0 _ _
    rw [lockSweep_nil]
    have h1 : a.services.map (sweepApply lockCall cond []) = a.services.map id :=
      List.map_congr_left (fun s _ => by simp [sweepApply])
    rw [h1, List.map_id]
  | cons n ns ih =>
    intro a e0 hn hs
    have hnn : n ∉ ns := (List.nodup_cons.mp hn).1
    have hns : ns.Nodup := (List.nodup_cons.mp hn).2
    cases hg : getSvc a n with
    | none =>
      have hstep : lockSweep lockCall cond (n :: ns) (a, e0)
          = lockSweep lockCall cond ns (a, e0) := by
        rw [lockSweep_cons]; simp [hg]
      rw [hstep, ih a e0 hns hs]
      apply List.map_congr_left
      intro s hsmem
      have hne : s.name ≠ n := by
        intro he
        have h2 := List.find?_eq_none.mp hg s hsmem
        simp [he] at h2
      simp [sweepApply, List.mem_cons, hne]
    | some s0 =>
      have hs0name : s0.name = n := by
        have h2 := List.find?_some hg
        simpa using h2
      have huniq : ∀ s ∈ a.services, s.name = n → s = s0 := by
        intro s hsmem hsname
        have h1 : a.services.find? (fun t => t.name == s.name) = some s :=
          find?_self a.services hs s hsmem
        rw [hsname] at h1
        have hg2 : a.services.find? (fun t => t.name == n) = some s0 := hg
        exact Option.some.inj (h1.symm.trans hg2)
      cases hc : cond n s0 with
      | false =>
        have hstep : lockSweep lockCall cond (n :: ns) (a, e0)
            = lockSweep lockCall cond ns (a, e0) := by
          rw [lockSweep_cons]; simp [hg, hc]
        rw [hstep, ih a e0 hns hs]
        apply List.map_congr_left
        intro s hsmem
        by_cases he : s.name = n
        · have hseq : s = s0 := huniq s hsmem he
          have hnotin : s.name ∉ ns := by rw [he]; exact hnn
          have hcnd : cond s.name s = false := by rw [he, hseq]; exact hc
          simp [sweepApply, List.mem_cons, hnotin, hcnd]
        · simp [sweepApply, List.mem_cons, he]
      | true =>
        rw [lockSweep_step_fired lockCall cond n ns a e0 s0 hg hc]
        have hs1 : (((lockServiceInternal lockCall a n true).1).services.map
            (fun s => s.name)).Nodup := by
          rw [lockServiceInternal_names]; exact hs
        rw [ih _ _ hns hs1]
        cases ho : lockCall n true with
        | none =>
          rw [lockServiceInternal_services_ok lockCall a n true ho, List.map_map]
          apply List.map_congr_left
          intro s hsmem
          by_cases he : s.name = n
          · have hseq : s = s0 := huniq s hsmem he
            have hnotin : s.name ∉ ns := by rw [he]; exact hnn
            have hcnd : cond n s = true := by rw [hseq]; exact hc
            simp [Function.comp, sweepApply, lockApply, List.mem_cons, he, hnotin,
              hcnd, ho]
          · simp [Function.comp, sweepApply, List.mem_cons, he]
        | some e =>
          rw [lockServiceInternal_services_fail lockCall a n true e ho, List.map_map]
          apply List.map_congr_left
          intro s hsmem
          by_cases he : s.name = n
          · have hseq : s = s0 := huniq s hsmem he
            have hnotin : s.name ∉ ns := by rw [he]; exact hnn
            have hcnd : cond n s = true := by rw [hseq]; exact hc
            simp [Function.comp, sweepApply, lockApply, List.mem_cons, he, hnotin,
              hcnd, ho]
          · simp [Function.comp, sweepApply, List.mem_cons, he]

theorem lockSweep_step_skip_none (lockCall : LockOracle)
    (cond : String → ServiceStatus → Bool) (n : String) (ns : List String)
    (a : Arbiter) (e0 : Option String) (hg : getSvc a n = none) :
    lockSweep lockCall cond (n :: ns) (a, e0) = lockSweep lockCall cond ns (a, e0) := by
  rw [lockSweep_cons]; simp [hg]

theorem lockSweep_step_skip_cond (lockCall : LockOracle)
    (cond : String → ServiceStatus → Bool) (n : String) (ns : List String)
    (a : Arbiter) (e0 : Option String) (s0 : ServiceStatus)
    (hg : getSvc a n = some s0) (hc : cond n s0 = false) :
    lockSweep lockCall cond (n :: ns) (a, e0) = lockSweep lockCall cond ns (a, e0) := by
  rw [lockSweep_cons]; simp [hg, hc]

theorem lockSweep_names (lockCall : LockOracle)
    (cond : String → ServiceStatus → Bool) (names : List String) :
    ∀ (a : Arbiter) (e0 : Option String),
      ((lockSweep lockCall cond names (a, e0)).1).services.map (fun s => s.name)
        = a.services.map (fun s => s.name) := by
  induction names with
  | nil => intro a e0; rfl
  | cons n ns ih =>
    intro a e0
    cases hg : getSvc a n with
    | none => rw [lockSweep_step_skip_none lockCall cond n ns a e0 hg]; exact ih a e0
    | some s0 =>
      cases hc : cond n s0 with
      | false =>
        rw [lockSweep_step_skip_cond lockCall cond n ns a e0 s0 hg hc]
        exact ih a e0
      | true =>
        rw [lockSweep_step_fired lockCall cond n ns a e0 s0 hg hc, ih _ _,
          lockServiceInternal_names]

theorem lockSweep_active_or (lockCall : LockOracle)
    (cond : String → ServiceStatus → Bool) (names : List String) :
    ∀ (a : Arbiter) (e0 : Option String),
      ((lockSweep lockCall cond names (a, e0)).1).activeService = a.activeService
      ∨ ((lockSweep lockCall cond names (a, e0)).1).activeService = "" := by
  induction names with
  | nil => intro a e0; left; rfl
  | cons n ns ih =>
    intro a e0
    cases hg : getSvc a n with
    | none => rw [lockSweep_step_skip_none lockCall cond n ns a e0 hg]; exact ih a e0
    | some s0 =>
      cases hc : cond n s0 with
      | false =>
        rw [lockSweep_step_skip_cond lockCall cond n ns a e0 s0 hg hc]
        exact ih a e0
      | true =>
        rw [lockSweep_step_fired lockCall cond n ns a e0 s0 hg hc]
        rcases ih ((lockServiceInternal lockCall a n true).1)
            (match (lockServiceInternal lockCall a n true).2 with
             | some e => some e
             | none => e0) with h | h
        · rcases lockServiceInternal_active_or lockCall a n true with h2 | h2
          · left; rw [h, h2]
          · right; rw [h, h2]
        · right; exact h

theorem lockSweep_active_preserve (lockCall : LockOracle)
    (cond : String → ServiceStatus → Bool) (names : List String) :
    ∀ (a : Arbiter) (e0 : Option String),
      (∀ n ∈ names, ∀ s : ServiceStatus, cond n s = true → n ≠ a.activeService) →
      ((lockSweep lockCall cond names (a, e0)).1).activeService = a.activeService := by
  induction names with
  | nil => intro a e0 _; rfl
  | cons n ns ih =>
    intro a e0 h
    cases hg : getSvc a n with
    | none =>
      rw [lockSweep_step_skip_none lockCall cond n ns a e0 hg]
      exact ih a e0 (fun m hm s hcm => h m (List.mem_cons_of_mem n hm) s hcm)
    | some s0 =>
      cases hc : cond n s0 with
      | false =>
        rw [lockSweep_step_skip_cond lockCall cond n ns a e0 s0 hg hc]
        exact ih a e0 (fun m hm s hcm => h m (List.mem_cons_of_mem n hm) s hcm)
      | true =>
        rw [lockSweep_step_fired lockCall cond n ns a e0 s0 hg hc]
        have hne : n ≠ a.activeService := h n (List.mem_cons_self n ns) s0 hc
        have hact : ((lockServiceInternal lockCall a n true).1).activeService
            = a.activeService :=
          lockServiceInternal_active_ne lockCall a n true (Ne.symm hne)
        have h2 : ∀ m ∈ ns, ∀ s : ServiceStatus, cond m s = true →
            m ≠ ((lockServiceInternal lockCall a n true).1).activeService := by
          intro m hm s hcm
          rw [hact]
          exact h m (List.mem_cons_of_mem n hm) s hcm
        rw [ih _ _ h2, hact]

theorem lockSweep_snd (lockCall : LockOracle)
    (cond : String → ServiceStatus → Bool) (names : List String) :
    ∀ (a : Arbiter) (e0 : Option String), names.Nodup →
      (lockSweep lockCall cond names (a, e0)).2
        = lastOr (names.filterMap (fun n =>
            match getSvc a n with
            | some s => if cond n s then lockCall n true else none
            | none => none)) e0 := by
  induction names with
  | nil => intro a e0 _; rfl
  | cons n ns ih =>
    intro a e0 hn
    have hnn : n ∉ ns := (List.nodup_cons.mp hn).1
    have hns : ns.Nodup := (List.nodup_cons.mp hn).2
    have hcongr : ∀ (b : Bool),
        ns.filterMap (fun m =>
          match getSvc ((lockServiceInternal lockCall a n b).1) m with
          | some s => if cond m s then lockCall m true else none
          | none => none)
        = ns.filterMap (fun m =>
          match getSvc a m with
          | some s => if cond m s then lockCall m true else none
          | none => none) := by
      intro b
      apply List.filterMap_congr
      intro m hm
      have hmn : m ≠ n := fun hcontra => hnn (hcontra ▸ hm)
      rw [getSvc_lockServiceInternal_other lockCall a n b m hmn]
    cases hg : getSvc a n with
    | none =>
      rw [lockSweep_step_skip_none lockCall cond n ns a e0 hg, ih a e0 hns,
        List.filterMap_cons]
      simp [hg]
    | some s0 =>
      cases hc : cond n s0 with
      | false =>
        rw [lockSweep_step_skip_cond lockCall cond n ns a e0 s0 hg hc, ih a e0 hns,
          List.filterMap_cons]
        simp [hg, hc]
      | true =>
        rw [lockSweep_step_fired lockCall cond n ns a e0 s0 hg hc]
        cases ho : lockCall n true with
        | none =>
          have he1 : (match (lockServiceInternal lockCall a n true).2 with
              | some e => some e
              | none => e0) = e0 := by
            rw [lockServiceInternal_snd, ho]
          rw [he1, ih ((lockServiceInternal lockCall a n true).1) e0 hns, hcongr true,
            List.filterMap_cons]
          simp [hg, hc, ho]
        | some e =>
          have he1 : (match (lockServiceInternal lockCall a n true).2 with
              | some e2 => some e2
              | none => e0) = some e := by
            rw [lockServiceInternal_snd, ho]
          rw [he1, ih ((lockServiceInternal lockCall a n true).1) (some e) hns,
            hcongr true, List.filterMap_cons]
          simp [hg, hc, ho, lastOr]

/-!  ## Lemmas about `pickKeep`  -/

theorem prioFold_cons (a : Arbiter) (p0 : Int) (n0 m : String) (ms : List String) :
    prioFold a (p0, n0) (m :: ms)
      = prioFold a (if priorityOf a m < p0 then (priorityOf a m, m) else (p0, n0)) ms :=
  rfl

theorem prioFold_spec (a : Arbiter) (l : List String) :
    ∀ (p0 : Int) (n0 : String), p0 = priorityOf a n0 →
      ((prioFold a (p0, n0) l).2 = n0 ∨ (prioFold a (p0, n0) l).2 ∈ l)
      ∧ (prioFold a (p0, n0) l).1 = priorityOf a (prioFold a (p0, n0) l).2
      ∧ (prioFold a (p0, n0) l).1 ≤ p0
      ∧ ∀ n ∈ l, (prioFold a (p0, n0) l).1 ≤ priorityOf a n := by
  induction l with
  | nil =>
    intro p0 n0 h0
    exact ⟨Or.inl rfl, h0, le_refl _, fun n hn => absurd hn (List.not_mem_nil n)⟩
  | cons m ms ih =>
    intro p0 n0 h0
    by_cases hlt : priorityOf a m < p0
    · rw [prioFold_cons, if_pos hlt]
      obtain ⟨hmem, heq, hle, hall⟩ := ih (priorityOf a m) m rfl
      refine ⟨?_, heq, ?_, ?_⟩
      · rcases hmem with h | h
        · right; rw [h]; exact List.mem_cons_self m ms
        · right; exact List.mem_cons_of_mem m h
      · exact le_trans hle (le_of_lt hlt)
      · intro n hn
        rcases List.mem_cons.mp hn with heq2 | hn2
        · rw [heq2]; exact hle
        · exact hall n hn2
    · rw [prioFold_cons, if_neg hlt]
      obtain ⟨hmem, heq, hle, hall⟩ := ih p0 n0 h0
      refine ⟨?_, heq, hle, ?_⟩
      · rcases hmem with h | h
        · left; exact h
        · right; exact List.mem_cons_of_mem m h
      · intro n hn
        rcases List.mem_cons.mp hn with heq2 | hn2
        · rw [heq2]; exact le_trans hle (not_lt.mp hlt)
        · exact hall n hn2

theorem pickKeep_active_mem (a : Arbiter) (unlocked : List String)
    (hne : a.activeService ≠ "") (hmem : a.activeService ∈ unlocked) :
    pickKeep a unlocked = a.activeService := by
  cases unlocked with
  | nil => cases hmem
  | cons first rest =>
    have h1 : (a.activeService != "") = true := by simp [hne]
    have h2 : (first :: rest).contains a.activeService = true := by
      simpa using hmem
    simp only [pickKeep, h1, h2]
    rfl

theorem pickKeep_active_not_mem (a : Arbiter) (first : String) (rest : List String)
    (hne : a.activeService ≠ "") (hnmem : a.activeService ∉ first :: rest) :
    pickKeep a (first :: rest) = first := by
  have h1 : (a.activeService != "") = true := by simp [hne]
  have h2 : (first :: rest).contains a.activeService = false := by
    simpa using hnmem
  simp only [pickKeep, h1, h2]
  rfl

theorem pickKeep_no_active (a : Arbiter) (first : String) (rest : List String)
    (hact : a.activeService = "") :
    pickKeep a (first :: rest) ∈ first :: rest
    ∧ ∀ n ∈ first :: rest,
        priorityOf a (pickKeep a (first :: rest)) ≤ priorityOf a n := by
  have h1 : (a.activeService != "") = false := by simp [hact]
  have hpk : pickKeep a (first :: rest)
      = (prioFold a (priorityOf a first, first) (first :: rest)).2 := by
    simp [pickKeep, h1]
  obtain ⟨hmem, heq, _, hall⟩ :=
    prioFold_spec a (first :: rest) (priorityOf a first) first rfl
  constructor
  · rw [hpk]
    rcases hmem with h | h
    · rw [h]; exact List.mem_cons_self first rest
    · exact h
  · intro n hn
    rw [hpk, ← heq]
    exact hall n hn

/-!  ## Lemmas about status polling  -/

theorem applyStatusFields_name (svc : ServiceStatus) (f : StatusFields) :
    (applyStatusFields svc f).name = svc.name := by
  rcases f with ⟨fl, fs, fa⟩
  cases fl <;> cases fs <;> cases fa <;> rfl

theorem applyStatusFields_online (svc : ServiceStatus) (f : StatusFields) :
    (applyStatusFields svc f).online = svc.online := by
  rcases f with ⟨fl, fs, fa⟩
  cases fl <;> cases fs <;> cases fa <;> rfl

theorem applyStatusFields_error (svc : ServiceStatus) (f : StatusFields) :
    (applyStatusFields svc f).error = svc.error := by
  rcases f with ⟨fl, fs, fa⟩
  cases fl <;> cases fs <;> cases fa <;> rfl

theorem put_names (l : List ServiceStatus) (name : String) (svcNew : ServiceStatus)
    (hnew : svcNew.name = name) :
    (l.map (fun s => if s.name == name then svcNew else s)).map (fun s => s.name)
      = l.map (fun s => s.name) := by
  rw [List.map_map]
  apply List.map_congr_left
  intro s _
  by_cases h : s.name = name <;> simp [Function.comp, h, hnew]

theorem pollServiceInternal_names (resp : String → PollResponse) (now : String)
    (a : Arbiter) (name : String) :
    ((pollServiceInternal resp now a name).services).map (fun s => s.name)
      = a.services.map (fun s => s.name) := by
  cases hg : getSvc a name with
  | none => simp [pollServiceInternal, hg]
  | some svc0 =>
    have hname : svc0.name = name := by simpa using List.find?_some hg
    cases hr : resp name with
    | netErr msg =>
      simp only [pollServiceInternal, hg, hr]
      exact put_names _ _ _ (by simp [hname])
    | badStatus code =>
      simp only [pollServiceInternal, hg, hr]
      exact put_names _ _ _ (by simp [hname])
    | bodyErr msg =>
      simp only [pollServiceInternal, hg, hr]
      exact put_names _ _ _ (by simp [hname])
    | jsonErr msg =>
      simp only [pollServiceInternal, hg, hr]
      exact put_names _ _ _ (by simp [hname])
    | ok payload =>
      simp only [pollServiceInternal, hg, hr]
      split
      · exact put_names _ _ _ (by simp [applyStatusFields_name, hname])
      · split
        · exact put_names _ _ _ (by simp [applyStatusFields_name, hname])
        · exact put_names _ _ _ (by simp [applyStatusFields_name, hname])

theorem getSvc_pollServiceInternal (resp : String → PollResponse) (now : String)
    (a : Arbiter) (name : String) (svc0 : ServiceStatus)
    (hg : getSvc a name = some svc0) :
    getSvc (pollServiceInternal resp now a name) name
      = some (match resp name with
          | PollResponse.netErr msg =>
              { svc0 with lastCheck := now, online := false, active := false,
                          error := msg }
          | PollResponse.badStatus code =>
              { svc0 with lastCheck := now, online := false, active := false,
                          error := "status code: " ++ toString code }
          | PollResponse.bodyErr msg =>
              { svc0 with lastCheck := now, online := false, error := msg }
          | PollResponse.jsonErr msg =>
              { svc0 with lastCheck := now, online := false, error := msg }
          | PollResponse.ok payload =>
              applyStatusFields
                { svc0 with lastCheck := now, online := true, error := "" }
                (unwrapData payload)) := by
  have hname : svc0.name = name := by simpa using List.find?_some hg
  cases hr : resp name with
  | netErr msg =>
    simp only [pollServiceInternal, hg, hr]
    exact find?_map_put a.services name _ (by simp [hname]) svc0 hg
  | badStatus code =>
    simp only [pollServiceInternal, hg, hr]
    exact find?_map_put a.services name _ (by simp [hname]) svc0 hg
  | bodyErr msg =>
    simp only [pollServiceInternal, hg, hr]
    exact find?_map_put a.services name _ (by simp [hname]) svc0 hg
  | jsonErr msg =>
    simp only [pollServiceInternal, hg, hr]
    exact find?_map_put a.services name _ (by simp [hname]) svc0 hg
  | ok payload =>
    simp only [pollServiceInternal, hg, hr]
    split
    · exact find?_map_put a.services name _
        (by simp [applyStatusFields_name, hname]) svc0 hg
    · split
      · exact find?_map_put a.services name _
          (by simp [applyStatusFields_name, hname]) svc0 hg
      · exact find?_map_put a.services name _
          (by simp [applyStatusFields_name, hname]) svc0 hg

theorem pollFold_names (resp : String → PollResponse) (now : String)
    (names : List String) :
    ∀ (a : Arbiter),
      ((names.foldl (pollServiceInternal resp now) a).services).map (fun s => s.name)
        = a.services.map (fun s => s.name) := by
  induction names with
  | nil => intro a; rfl
  | cons n ns ih =>
    intro a
    rw [List.foldl_cons, ih, pollServiceInternal_names]

/-!  ## The single-unlocked property of enforcement  -/

theorem unlockedServices_nodup (a : Arbiter)
    (hs : (a.services.map (fun s => s.name)).Nodup) :
    (unlockedServices a).Nodup := by
  unfold unlockedServices
  exact List.Nodup.sublist
    (List.Sublist.map (fun s => s.name) (List.filter_sublist a.services)) hs

theorem enforce_atMostOne (lockCall : LockOracle) (a : Arbiter)
    (hok : ∀ n b, lockCall n b = none)
    (hs : (a.services.map (fun s => s.name)).Nodup) :
    ((enforceSingleUnlocked lockCall a).services.filter
        (fun s => s.online && !s.locked)).length ≤ 1 := by
  by_cases hlen : 1 < (unlockedServices a).length
  · have hund : (unlockedServices a).Nodup := unlockedServices_nodup a hs
    have henf : enforceSingleUnlocked lockCall a
        = (lockSweep lockCall (fun n _ => n != pickKeep a (unlockedServices a))
            (unlockedServices a) (a, none)).1 := by
      simp only [enforceSingleUnlocked]
      rw [if_pos hlen]
    rw [henf,
      lockSweep_services lockCall (fun n _ => n != pickKeep a (unlockedServices a))
        (unlockedServices a) a none hund hs,
      ← List.countP_eq_length_filter, List.countP_map]
    have hcount : List.countP (fun s => s.name == pickKeep a (unlockedServices a))
        a.services ≤ 1 := by
      have h1 : List.countP
          ((fun x => x == pickKeep a (unlockedServices a))
            ∘ (fun s : ServiceStatus => s.name)) a.services ≤ 1 := by
        rw [← List.countP_map, ← List.count_eq_countP]
        exact List.nodup_iff_count_le_one.mp hs (pickKeep a (unlockedServices a))
      exact h1
    refine le_trans (List.countP_mono_left ?_) hcount
    intro s hsm hps
    simp only [Function.comp_apply] at hps
    by_cases hfire : s.name ∈ unlockedServices a
        ∧ (fun n (_ : ServiceStatus) => n != pickKeep a (unlockedServices a))
            s.name s = true
    · have hsw : sweepApply lockCall
          (fun n _ => n != pickKeep a (unlockedServices a)) (unlockedServices a) s
          = { s with locked := true, error := "" } := by
        rw [sweepApply, if_pos hfire]
        simp [lockApply, hok]
      rw [hsw] at hps
      simp at hps
    · have hsw : sweepApply lockCall
          (fun n _ => n != pickKeep a (unlockedServices a)) (unlockedServices a) s
          = s := by
        rw [sweepApply, if_neg hfire]
      rw [hsw] at hps
      have hsf : s ∈ a.services.filter (fun s => s.online && !s.locked) :=
        List.mem_filter.mpr ⟨hsm, hps⟩
      have hmemu : s.name ∈ unlockedServices a :=
        List.mem_map_of_mem (fun s => s.name) hsf
      by_cases hk : s.name = pickKeep a (unlockedServices a)
      · simp [hk]
      · exact absurd ⟨hmemu, by simp [hk]⟩ hfire
  · have henf : enforceSingleUnlocked lockCall a = a := by
      simp only [enforceSingleUnlocked]
      rw [if_neg hlen]
    rw [henf]
    have heq : (unlockedServices a).length
        = (a.services.filter (fun s => s.online && !s.locked)).length := by
      unfold unlockedServices
      rw [List.length_map]
    omega

/-!  ## Pointwise computation helpers  -/

theorem lockApply_name (lockCall : LockOracle) (n : String) (s : ServiceStatus) :
    (lockApply lockCall n s).name = s.name := by
  rw [lockApply]
  split
  · cases lockCall n true <;> rfl
  · rfl

theorem sweepApply_name (lockCall : LockOracle) (cond : String → ServiceStatus → Bool)
    (names : List String) (s : ServiceStatus) :
    (sweepApply lockCall cond names s).name = s.name := by
  rw [sweepApply]
  split
  · exact lockApply_name lockCall s.name s
  · rfl

theorem sweepApply_fired (lockCall : LockOracle) (cond : String → ServiceStatus → Bool)
    (names : List String) (s : ServiceStatus)
    (h1 : s.name ∈ names) (h2 : cond s.name s = true) :
    sweepApply lockCall cond names s = lockApply lockCall s.name s := by
  rw [sweepApply, if_pos ⟨h1, h2⟩]

theorem sweepApply_not_fired (lockCall : LockOracle)
    (cond : String → ServiceStatus → Bool) (names : List String) (s : ServiceStatus)
    (h : ¬(s.name ∈ names ∧ cond s.name s = true)) :
    sweepApply lockCall cond names s = s := by
  rw [sweepApply, if_neg h]

theorem lockApply_self_ok (lockCall : LockOracle) (s : ServiceStatus)
    (h : lockCall s.name true = none) :
    lockApply lockCall s.name s = { s with locked := true, error := "" } := by
  rw [lockApply]
  simp [h]

theorem lockApply_self_fail (lockCall : LockOracle) (s : ServiceStatus) (e : String)
    (h : lockCall s.name true = some e) :
    lockApply lockCall s.name s = { s with error := e } := by
  rw [lockApply]
  simp [h]

theorem lockServiceInternal_active_fail (lockCall : LockOracle) (a : Arbiter)
    (n : String) (b : Bool) (e : String) (h : lockCall n b = some e) :
    ((lockServiceInternal lockCall a n b).1).activeService = a.activeService := by
  simp [lockServiceInternal, h]

/-!  ## Unfolding lemmas for the mutating operations  -/

theorem ActivateService_fail_eq (lockCall : LockOracle) (a : Arbiter)
    (name : String) (target : ServiceStatus) (e : String)
    (h : getSvc a name = some target) (hon : target.online = true)
    (he : lockCall name false = some e) :
    ActivateService lockCall a name
      = ((lockServiceInternal lockCall
            ((lockSweep lockCall (fun n s => n != name && s.online)
              (a.services.map (fun s => s.name)) (a, none)).1) name false).1,
         some ("failed to unlock service: " ++ e)) := by
  simp only [ActivateService, h, hon, Bool.not_true, Bool.false_eq_true, if_false]
  rcases hp : lockServiceInternal lockCall
      ((lockSweep lockCall (fun n s => n != name && s.online)
        (a.services.map (fun s => s.name)) (a, none)).1) name false with ⟨a2, oe⟩
  have hoe : oe = some e := by
    have h2 := lockServiceInternal_snd lockCall
      ((lockSweep lockCall (fun n s => n != name && s.online)
        (a.services.map (fun s => s.name)) (a, none)).1) name false
    rw [hp] at h2
    simp only [] at h2
    rw [h2, he]
  subst hoe
  rw [hp]

theorem ActivateService_ok_eq (lockCall : LockOracle) (a : Arbiter)
    (name : String) (target : ServiceStatus)
    (h : getSvc a name = some target) (hon : target.online = true)
    (he : lockCall name false = none) :
    ActivateService lockCall a name
      = ({ (lockServiceInternal lockCall
              ((lockSweep lockCall (fun n s => n != name && s.online)
                (a.services.map (fun s => s.name)) (a, none)).1) name false).1
            with activeService := name },
         none) := by
  simp only [ActivateService, h, hon, Bool.not_true, Bool.false_eq_true, if_false]
  rcases hp : lockServiceInternal lockCall
      ((lockSweep lockCall (fun n s => n != name && s.online)
        (a.services.map (fun s => s.name)) (a, none)).1) name false with ⟨a2, oe⟩
  have hoe : oe = none := by
    have h2 := lockServiceInternal_snd lockCall
      ((lockSweep lockCall (fun n s => n != name && s.online)
        (a.services.map (fun s => s.name)) (a, none)).1) name false
    rw [hp] at h2
    simp only [] at h2
    rw [h2, he]
  subst hoe
  rw [hp]

theorem LockService_unlock_eq (lockCall : LockOracle) (a : Arbiter)
    (name : String) (target : ServiceStatus) (h : getSvc a name = some target) :
    LockService lockCall a name false
      = lockServiceInternal lockCall
          ((lockSweep lockCall (fun n s => n != name && s.online && !s.locked)
            (a.services.map (fun s => s.name)) (a, none)).1) name false := by
  simp only [LockService, h, Bool.not_false, if_true]

theorem DeactivateAll_eq (lockCall : LockOracle) (a : Arbiter) :
    DeactivateAll lockCall a
      = ({ (lockSweep lockCall (fun _ s => s.online)
            (a.services.map (fun s => s.name)) (a, none)).1
            with activeService := "" },
         (lockSweep lockCall (fun _ s => s.online)
            (a.services.map (fun s => s.name)) (a, none)).2) := rfl

theorem enforceSingleUnlocked_eq (lockCall : LockOracle) (a : Arbiter)
    (hlen : 1 < (unlockedServices a).length) :
    enforceSingleUnlocked lockCall a
      = (lockSweep lockCall (fun n _ => n != pickKeep a (unlockedServices a))
          (unlockedServices a) (a, none)).1 := by
  simp only [enforceSingleUnlocked]
  rw [if_pos hlen]

theorem enforceSingleUnlocked_skip_eq (lockCall : LockOracle) (a : Arbiter)
    (hlen : ¬1 < (unlockedServices a).length) :
    enforceSingleUnlocked lockCall a = a := by
  simp only [enforceSingleUnlocked]
  rw [if_neg hlen]

/-!  ## Claim theorems  -/

/-- C9: the invariant-enforcement step never changes `activeService`: for
every lock-call oracle and every engine state, `activeService` after
`enforceSingleUnlocked` equals `activeService` before it (the enforcement
step never selects the active service as a lock target, so the clearing
side effect of the shared lock routine never fires, and a cleared-empty
`activeService` can only be rewritten to itself). -/
theorem enforce_preserves_activeService (lockCall : LockOracle) (a : Arbiter) :
    (enforceSingleUnlocked lockCall a).activeService = a.activeService := by
  by_cases hlen : 1 < (unlockedServices a).length
  · rw [enforceSingleUnlocked_eq lockCall a hlen]
    by_cases hact : a.activeService = ""
    · rcases lockSweep_active_or lockCall
          (fun n _ => n != pickKeep a (unlockedServices a))
          (unlockedServices a) a none with h | h
      · exact h
      · rw [h, hact]
    · by_cases hmem : a.activeService ∈ unlockedServices a
      · have hkeep : pickKeep a (unlockedServices a) = a.activeService :=
          pickKeep_active_mem a (unlockedServices a) hact hmem
        apply lockSweep_active_preserve
        intro n _ s hcn heq
        rw [heq, hkeep] at hcn
        simp at hcn
      · apply lockSweep_active_preserve
        intro n hn _ _ heq
        rw [heq] at hn
        exact hmem hn
  · rw [enforceSingleUnlocked_skip_eq lockCall a hlen]

/-- C5: activating an offline registered service fails with the
service-is-offline error and returns the engine state completely
unchanged; the result does not depend on the lock-call oracle, so no
downstream call is observable. -/
theorem activate_offline_no_effect (lockCall : LockOracle) (a : Arbiter)
    (name : String) (target : ServiceStatus)
    (h : getSvc a name = some target) (hoff : target.online = false) :
    ActivateService lockCall a name = (a, some ("service is offline: " ++ name)) := by
  simp [ActivateService, h, hoff]

/-- Witness for C5 at a concrete offline service. -/
theorem activate_offline_no_effect_witness :
    ActivateService (fun _ _ => none)
        { services := [⟨"w", "w", "", false, false, false, 2, "", ""⟩],
          activeService := "" } "w"
      = ({ services := [⟨"w", "w", "", false, false, false, 2, "", ""⟩],
           activeService := "" }, some ("service is offline: " ++ "w")) :=
  activate_offline_no_effect (fun _ _ => none)
    { services := [⟨"w", "w", "", false, false, false, 2, "", ""⟩],
      activeService := "" } "w"
    ⟨"w", "w", "", false, false, false, 2, "", ""⟩ (by rfl) (by rfl)

/-- C8: interpretation of a successfully parsed status payload, after the
optional unwrap of a `data` field: a present boolean `locked` field
overwrites the locked state and absence leaves it unchanged; a `state`
field equal to "playing" (with no `active` field) yields `active = true`;
a present boolean `active` field overwrites the active state regardless of
the `state` field (it is applied after the state rule); absence of both
`state` and `active` leaves the active state unchanged. -/
theorem statusFields_interpretation (svc : ServiceStatus) (p : StatusPayload) :
    (∀ b, (unwrapData p).locked = some b →
        (applyStatusFields svc (unwrapData p)).locked = b)
    ∧ ((unwrapData p).locked = none →
        (applyStatusFields svc (unwrapData p)).locked = svc.locked)
    ∧ ((unwrapData p).state = some "playing" → (unwrapData p).active = none →
        (applyStatusFields svc (unwrapData p)).active = true)
    ∧ (∀ b, (unwrapData p).active = some b →
        (applyStatusFields svc (unwrapData p)).active = b)
    ∧ ((unwrapData p).state = none → (unwrapData p).active = none →
        (applyStatusFields svc (unwrapData p)).active = svc.active) := by
  generalize unwrapData p = f
  obtain ⟨fl, fs, fa⟩ := f
  cases fl <;> cases fs <;> cases fa <;> simp [applyStatusFields]

/-- Witness for C8 at a concrete wrapped payload. -/
theorem statusFields_interpretation_witness :
    (applyStatusFields ⟨"a", "a", "", true, false, false, 1, "", ""⟩
        (unwrapData ⟨some ⟨some true, some "playing", none⟩,
          ⟨none, none, none⟩⟩)).locked = true
    ∧ (applyStatusFields ⟨"a", "a", "", true, false, false, 1, "", ""⟩
        (unwrapData ⟨some ⟨some true, some "playing", none⟩,
          ⟨none, none, none⟩⟩)).active = true := by
  have h := statusFields_interpretation ⟨"a", "a", "", true, false, false, 1, "", ""⟩
    ⟨some ⟨some true, some "playing", none⟩, ⟨none, none, none⟩⟩
  exact ⟨h.1 true rfl, h.2.2.1 rfl rfl⟩

/-- C1 counterexample: a poll cycle that runs to completion (both status
polls succeed; the enforcement lock call fails and is logged best-effort)
leaves two services online and unlocked, so the size of that set is not at
most 1. -/
theorem pollCycle_two_unlocked_counterexample :
    ((pollAllServices (fun _ => PollResponse.ok ⟨none, ⟨none, none, none⟩⟩)
        (fun _ _ => some "dial tcp: connection refused") "t"
        { services := [⟨"a", "a", "", true, false, false, 1, "", ""⟩,
                       ⟨"b", "b", "", true, false, false, 2, "", ""⟩],
          activeService := "" }).services.filter
      (fun s => s.online && !s.locked)).length = 2 := by
  rfl

/-- C1 (amended): after a completed poll cycle in which every lock call
issued by the enforcement step succeeds, the set of services with
`online = true` and `locked = false` has size at most 1.  (Lock calls are
best-effort, so when one fails the offending service stays unlocked until
a later cycle, as the counterexample shows.) -/
theorem pollCycle_atMostOne_unlocked (resp : String → PollResponse)
    (lockCall : LockOracle) (now : String) (a : Arbiter)
    (hok : ∀ n b, lockCall n b = none)
    (hs : (a.services.map (fun s => s.name)).Nodup) :
    ((pollAllServices resp lockCall now a).services.filter
        (fun s => s.online && !s.locked)).length ≤ 1 := by
  have hpoll : ((((a.services.map (fun s => s.name)).foldl
      (pollServiceInternal resp now) a).services).map (fun s => s.name)).Nodup := by
    rw [pollFold_names]
    exact hs
  exact enforce_atMostOne lockCall _ hok hpoll

/-- Witness for C1 (amended) at a concrete two-service state with a
successful oracle. -/
theorem pollCycle_atMostOne_unlocked_witness :
    ((pollAllServices (fun _ => PollResponse.ok ⟨none, ⟨none, none, none⟩⟩)
        (fun _ _ => none) "t"
        { services := [⟨"a", "a", "", true, false, false, 1, "", ""⟩,
                       ⟨"b", "b", "", true, false, false, 2, "", ""⟩],
          activeService := "" }).services.filter
      (fun s => s.online && !s.locked)).length ≤ 1 :=
  pollCycle_atMostOne_unlocked (fun _ => PollResponse.ok ⟨none, ⟨none, none, none⟩⟩)
    (fun _ _ => none) "t"
    { services := [⟨"a", "a", "", true, false, false, 1, "", ""⟩,
                   ⟨"b", "b", "", true, false, false, 2, "", ""⟩],
      activeService := "" }
    (fun _ _ => rfl) (by decide)

/-- C3 counterexample: a poll whose response body is invalid JSON sets
`online = false` and records the error but leaves `active` at its previous
value `true` (the claim says such a poll sets `active = false`). -/
theorem poll_jsonErr_keeps_active_counterexample :
    ((pollServiceInternal (fun _ => PollResponse.jsonErr "unexpected end of JSON input")
        "t" { services := [⟨"a", "a", "", true, true, true, 1, "", ""⟩],
              activeService := "" } "a").services.map
      (fun s => (s.online, s.active, s.locked, s.error)))
      = [(false, true, true, "unexpected end of JSON input")] := by
  rfl

/-- C3 (amended): a failed network call or a non-200 status sets
`online = false`, `active = false`, records the error message, and leaves
`locked` at its previous value; an unreadable body or invalid JSON sets
`online = false` and records the error but leaves both `locked` and
`active` at their previous values; a subsequent successful poll sets
`online = true` and clears the error. -/
theorem poll_failure_effects (resp : String → PollResponse) (now : String)
    (a : Arbiter) (name : String) (svc0 : ServiceStatus)
    (hg : getSvc a name = some svc0) :
    (∀ msg, resp name = PollResponse.netErr msg →
        getSvc (pollServiceInternal resp now a name) name
          = some { svc0 with lastCheck := now, online := false, active := false,
                             error := msg })
    ∧ (∀ code, resp name = PollResponse.badStatus code →
        getSvc (pollServiceInternal resp now a name) name
          = some { svc0 with lastCheck := now, online := false, active := false,
                             error := "status code: " ++ toString code })
    ∧ (∀ msg, resp name = PollResponse.bodyErr msg →
        getSvc (pollServiceInternal resp now a name) name
          = some { svc0 with lastCheck := now, online := false, error := msg })
    ∧ (∀ msg, resp name = PollResponse.jsonErr msg →
        getSvc (pollServiceInternal resp now a name) name
          = some { svc0 with lastCheck := now, online := false, error := msg })
    ∧ (∀ payload, resp name = PollResponse.ok payload →
        ∃ s2, getSvc (pollServiceInternal resp now a name) name = some s2
          ∧ s2.online = true ∧ s2.error = "") := by
  refine ⟨?_, ?_, ?_, ?_, ?_⟩
  · intro msg hr
    rw [getSvc_pollServiceInternal resp now a name svc0 hg, hr]
  · intro code hr
    rw [getSvc_pollServiceInternal resp now a name svc0 hg, hr]
  · intro msg hr
    rw [getSvc_pollServiceInternal resp now a name svc0 hg, hr]
  · intro msg hr
    rw [getSvc_pollServiceInternal resp now a name svc0 hg, hr]
  · intro payload hr
    rw [getSvc_pollServiceInternal resp now a name svc0 hg, hr]
    refine ⟨_, rfl, ?_, ?_⟩
    · rw [applyStatusFields_online]
    · rw [applyStatusFields_error]

/-- Witness for C3 (amended) at a concrete network failure. -/
theorem poll_failure_effects_witness :
    getSvc (pollServiceInternal (fun _ => PollResponse.netErr "dial tcp: refused")
        "t2" { services := [⟨"a", "a", "", true, true, true, 1, "", ""⟩],
               activeService := "" } "a") "a"
      = some ⟨"a", "a", "", false, true, false, 1, "t2", "dial tcp: refused"⟩ := by
  have h := poll_failure_effects (fun _ => PollResponse.netErr "dial tcp: refused")
    "t2" { services := [⟨"a", "a", "", true, true, true, 1, "", ""⟩],
           activeService := "" } "a"
    ⟨"a", "a", "", true, true, true, 1, "", ""⟩ rfl
  rw [h.1 "dial tcp: refused" rfl]

/-- C6 counterexample: the target's unlock call fails and Activate returns
the error, but `activeService` has changed: it was "y" before the call and
is empty afterwards, because the best-effort phase locked "y" (the current
active service). -/
theorem activate_unlock_fail_active_changed_counterexample :
    (ActivateService
        (fun n lk => if n == "x" && !lk then some "connection refused" else none)
        { services := [⟨"x", "x", "", true, true, false, 1, "", ""⟩,
                       ⟨"y", "y", "", true, false, true, 2, "", ""⟩],
          activeService := "y" } "x").2
      = some ("failed to unlock service: connection refused")
    ∧ (ActivateService
        (fun n lk => if n == "x" && !lk then some "connection refused" else none)
        { services := [⟨"x", "x", "", true, true, false, 1, "", ""⟩,
                       ⟨"y", "y", "", true, false, true, 2, "", ""⟩],
          activeService := "y" } "x").1.activeService = ""
    ∧ ({ services := [⟨"x", "x", "", true, true, false, 1, "", ""⟩,
                      ⟨"y", "y", "", true, false, true, 2, "", ""⟩],
         activeService := "y" } : Arbiter).activeService = "y" := by
  refine ⟨rfl, rfl, rfl⟩

/-- C6 (amended): for an online registered target, if the final unlock
call fails then Activate returns that error and does not set
`activeService` to the target: `activeService` keeps its pre-call value
unless the best-effort phase successfully locked the currently active
service, in which case it is empty; if the unlock call succeeds then
Activate succeeds and sets `activeService` to the target. -/
theorem activate_unlock_outcome (lockCall : LockOracle) (a : Arbiter)
    (name : String) (target : ServiceStatus)
    (h : getSvc a name = some target) (hon : target.online = true) :
    (∀ e, lockCall name false = some e →
        (ActivateService lockCall a name).2
          = some ("failed to unlock service: " ++ e)
        ∧ ((ActivateService lockCall a name).1.activeService = a.activeService
           ∨ (ActivateService lockCall a name).1.activeService = ""))
    ∧ (lockCall name false = none →
        (ActivateService lockCall a name).2 = none
        ∧ (ActivateService lockCall a name).1.activeService = name) := by
  constructor
  · intro e he
    rw [ActivateService_fail_eq lockCall a name target e h hon he]
    refine ⟨rfl, ?_⟩
    rw [lockServiceInternal_active_unlock]
    exact lockSweep_active_or lockCall (fun n s => n != name && s.online)
      (a.services.map (fun s => s.name)) a none
  · intro he
    rw [ActivateService_ok_eq lockCall a name target h hon he]
    exact ⟨rfl, rfl⟩

/-- Witness for C6 (amended) at a concrete failing unlock call. -/
theorem activate_unlock_outcome_witness :
    (ActivateService
        (fun n lk => if n == "x" && !lk then some "boom" else none)
        { services := [⟨"x", "x", "", true, true, false, 1, "", ""⟩],
          activeService := "" } "x").2
      = some ("failed to unlock service: " ++ "boom") :=
  ((activate_unlock_outcome
      (fun n lk => if n == "x" && !lk then some "boom" else none)
      { services := [⟨"x", "x", "", true, true, false, 1, "", ""⟩],
        activeService := "" } "x"
      ⟨"x", "x", "", true, true, false, 1, "", ""⟩ rfl rfl).1 "boom" rfl).1

/-- C2 counterexample: with an active service designated ("z") that is not
in the unlocked set, enforcement keeps the first unlocked service in
iteration order ("a", priority 5) and locks the lowest-priority member
("b", priority 1), contradicting the claimed lowest-priority selection. -/
theorem enforce_keep_not_lowest_priority_counterexample :
    ((enforceSingleUnlocked (fun _ _ => none)
        { services := [⟨"a", "a", "", true, false, false, 5, "", ""⟩,
                       ⟨"b", "b", "", true, false, false, 1, "", ""⟩,
                       ⟨"z", "z", "", true, true, true, 0, "", ""⟩],
          activeService := "z" }).services.map (fun s => (s.name, s.locked)))
      = [("a", false), ("b", true), ("z", true)] := by
  rfl

/-- C2 (amended): when enforcement finds more than one online unlocked
service, the one it keeps unlocked is the currently designated active
service when that service is in the set; when no active service is
designated, a member with the lowest priority number (ties broken by
iteration order); when an active service is designated but absent from the
set, the first member in iteration order.  Every other member of the set
is issued a lock call whose outcome (locked on success, recorded error on
failure) is exactly reflected in the final state, and the kept member's
entry is unchanged. -/
theorem enforce_keep_choice (lockCall : LockOracle) (a : Arbiter)
    (hs : (a.services.map (fun s => s.name)).Nodup)
    (hlen : 1 < (unlockedServices a).length) :
    (a.activeService ≠ "" → a.activeService ∈ unlockedServices a →
        pickKeep a (unlockedServices a) = a.activeService)
    ∧ (a.activeService = "" →
        pickKeep a (unlockedServices a) ∈ unlockedServices a
        ∧ ∀ n ∈ unlockedServices a,
            priorityOf a (pickKeep a (unlockedServices a)) ≤ priorityOf a n)
    ∧ (a.activeService ≠ "" → a.activeService ∉ unlockedServices a →
        (unlockedServices a).head? = some (pickKeep a (unlockedServices a)))
    ∧ (∀ s ∈ a.services, s.online = true → s.locked = false →
        s.name ≠ pickKeep a (unlockedServices a) →
        getSvc (enforceSingleUnlocked lockCall a) s.name
          = some (lockApply lockCall s.name s))
    ∧ (∀ s ∈ a.services, s.name = pickKeep a (unlockedServices a) →
        getSvc (enforceSingleUnlocked lockCall a) s.name = some s) := by
  obtain ⟨first, rest, hu⟩ : ∃ f r, unlockedServices a = f :: r := by
    cases hul : unlockedServices a with
    | nil => rw [hul] at hlen; simp at hlen
    | cons f r => exact ⟨f, r, rfl⟩
  have hund : (unlockedServices a).Nodup := unlockedServices_nodup a hs
  have hfind : ∀ s ∈ a.services,
      getSvc (enforceSingleUnlocked lockCall a) s.name
        = some (sweepApply lockCall
            (fun n _ => n != pickKeep a (unlockedServices a))
            (unlockedServices a) s) := by
    intro s hsm
    show (enforceSingleUnlocked lockCall a).services.find? (fun t => t.name == s.name) = _
    rw [enforceSingleUnlocked_eq lockCall a hlen,
      lockSweep_services lockCall _ (unlockedServices a) a none hund hs]
    exact find?_map_namePreserving _ (sweepApply_name lockCall _ _) a.services hs s hsm
  refine ⟨?_, ?_, ?_, ?_, ?_⟩
  · intro hne hmem
    exact pickKeep_active_mem a (unlockedServices a) hne hmem
  · intro hact
    rw [hu]
    exact pickKeep_no_active a first rest hact
  · intro hne hnm
    rw [hu] at hnm ⊢
    rw [pickKeep_active_not_mem a first rest hne hnm]
    rfl
  · intro s hsm hson hsl hsk
    have hmemu : s.name ∈ unlockedServices a := by
      have hsf : s ∈ a.services.filter (fun t => t.online && !t.locked) :=
        List.mem_filter.mpr ⟨hsm, by rw [hson, hsl]; rfl⟩
      exact List.mem_map_of_mem (fun t => t.name) hsf
    rw [hfind s hsm,
      sweepApply_fired lockCall _ (unlockedServices a) s hmemu (by simp [hsk])]
  · intro s hsm hsk
    have hnf : ¬(s.name ∈ unlockedServices a
        ∧ (s.name != pickKeep a (unlockedServices a)) = true) := by
      intro hcontra
      have hc := hcontra.2
      rw [hsk] at hc
      simp at hc
    rw [hfind s hsm, sweepApply_not_fired lockCall _ (unlockedServices a) s hnf]

/-- Witness for C2 (amended): in the counterexample state, the non-kept
unlocked member "b" is issued a (successful) lock call. -/
theorem enforce_keep_choice_witness :
    getSvc (enforceSingleUnlocked (fun _ _ => none)
        { services := [⟨"a", "a", "", true, false, false, 5, "", ""⟩,
                       ⟨"b", "b", "", true, false, false, 1, "", ""⟩,
                       ⟨"z", "z", "", true, true, true, 0, "", ""⟩],
          activeService := "z" }) "b"
      = some ⟨"b", "b", "", true, true, false, 1, "", ""⟩ := by
  have h := enforce_keep_choice (fun _ _ => none)
    { services := [⟨"a", "a", "", true, false, false, 5, "", ""⟩,
                   ⟨"b", "b", "", true, false, false, 1, "", ""⟩,
                   ⟨"z", "z", "", true, true, true, 0, "", ""⟩],
      activeService := "z" } (by decide) (by decide)
  exact h.2.2.2.1 ⟨"b", "b", "", true, false, false, 1, "", ""⟩
    (by decide) rfl rfl (by decide)

/-- C4 counterexample: unlocking "x" with every downstream call succeeding
still leaves the offline service "w" (whose lock flag was false) unlocked,
so "x" is not the only unlocked service afterwards. -/
theorem setLock_offline_still_unlocked_counterexample :
    (((LockService (fun _ _ => none)
        { services := [⟨"x", "x", "", true, true, false, 1, "", ""⟩,
                       ⟨"w", "w", "", false, false, false, 2, "", ""⟩],
          activeService := "" } "x" false).1.services.filter
      (fun s => !s.locked)).map (fun s => s.name)) = ["x", "w"] := by
  rfl

/-- C4 (amended): SetLock(X, false) issues lock calls to every other
online, unlocked service before the unlock call to X; when all downstream
calls succeed, X ends unlocked, every other online service ends locked,
and every offline service keeps its previous state — so X is the only
unlocked service among the online ones. -/
theorem setLock_unlock_effects (lockCall : LockOracle) (a : Arbiter)
    (name : String) (target : ServiceStatus)
    (hs : (a.services.map (fun s => s.name)).Nodup)
    (h : getSvc a name = some target)
    (hok : ∀ n b, lockCall n b = none) :
    (LockService lockCall a name false).2 = none
    ∧ getSvc (LockService lockCall a name false).1 name
        = some { target with locked := false, error := "" }
    ∧ (∀ s ∈ a.services, s.name ≠ name → s.online = true →
        ∃ s2, getSvc (LockService lockCall a name false).1 s.name = some s2
          ∧ s2.locked = true)
    ∧ (∀ s ∈ a.services, s.name ≠ name → s.online = false →
        getSvc (LockService lockCall a name false).1 s.name = some s) := by
  have htname : target.name = name := by simpa using List.find?_some h
  have htm : target ∈ a.services := List.mem_of_find?_eq_some h
  have hserv : (LockService lockCall a name false).1.services
      = (a.services.map (sweepApply lockCall
          (fun n s => n != name && s.online && !s.locked)
          (a.services.map (fun s => s.name)))).map
        (fun s => if s.name == name then { s with locked := false, error := "" }
          else s) := by
    rw [LockService_unlock_eq lockCall a name target h,
      lockServiceInternal_services_ok lockCall _ name false (hok name false),
      lockSweep_services lockCall _ _ a none hs hs]
  have hFname : ∀ t : ServiceStatus,
      (((fun s => if s.name == name then { s with locked := false, error := "" }
          else s)
        ∘ (sweepApply lockCall (fun n s => n != name && s.online && !s.locked)
            (a.services.map (fun s => s.name)))) t).name = t.name := by
    intro t
    by_cases hb : ((sweepApply lockCall
        (fun n s => n != name && s.online && !s.locked)
        (a.services.map (fun s => s.name)) t).name == name) = true
    · simp only [Function.comp_apply, if_pos hb]
      exact sweepApply_name lockCall _ _ t
    · simp only [Function.comp_apply, if_neg hb]
      exact sweepApply_name lockCall _ _ t
  have hfind : ∀ s ∈ a.services,
      getSvc (LockService lockCall a name false).1 s.name
        = some (((fun s => if s.name == name
              then { s with locked := false, error := "" } else s)
            ∘ (sweepApply lockCall (fun n s => n != name && s.online && !s.locked)
                (a.services.map (fun s => s.name)))) s) := by
    intro s hsm
    show (LockService lockCall a name false).1.services.find?
      (fun t => t.name == s.name) = _
    rw [hserv, List.map_map]
    exact find?_map_namePreserving _ hFname a.services hs s hsm
  refine ⟨?_, ?_, ?_, ?_⟩
  · rw [LockService_unlock_eq lockCall a name target h, lockServiceInternal_snd]
    exact hok name false
  · have h2 := hfind target htm
    rw [htname] at h2
    rw [h2]
    have hsw : sweepApply lockCall (fun n s => n != name && s.online && !s.locked)
        (a.services.map (fun s => s.name)) target = target := by
      apply sweepApply_not_fired
      intro hcontra
      have hc := hcontra.2
      rw [htname] at hc
      simp at hc
    simp only [Function.comp_apply, hsw]
    rw [if_pos (by simp [htname])]
  · intro s hsm hsn hson
    have h2 := hfind s hsm
    by_cases hlk : s.locked = true
    · have hsw : sweepApply lockCall (fun n s => n != name && s.online && !s.locked)
          (a.services.map (fun s => s.name)) s = s := by
        apply sweepApply_not_fired
        intro hcontra
        have hc := hcontra.2
        simp [hlk] at hc
      refine ⟨s, ?_, hlk⟩
      rw [h2]
      simp only [Function.comp_apply, hsw]
      rw [if_neg (by simp [hsn])]
    · have hlkf : s.locked = false := by
        cases hsl2 : s.locked
        · rfl
        · exact absurd hsl2 hlk
      have hmemn : s.name ∈ a.services.map (fun t => t.name) :=
        List.mem_map_of_mem (fun t => t.name) hsm
      have hsw : sweepApply lockCall (fun n s => n != name && s.online && !s.locked)
          (a.services.map (fun s => s.name)) s
          = { s with locked := true, error := "" } := by
        rw [sweepApply_fired lockCall _ _ s hmemn (by simp [hsn, hson, hlkf])]
        exact lockApply_self_ok lockCall s (hok s.name true)
      refine ⟨{ s with locked := true, error := "" }, ?_, rfl⟩
      rw [h2]
      simp only [Function.comp_apply, hsw]
      rw [if_neg (by simp [hsn])]
  · intro s hsm hsn hsoff
    have hsw : sweepApply lockCall (fun n s => n != name && s.online && !s.locked)
        (a.services.map (fun s => s.name)) s = s := by
      apply sweepApply_not_fired
      intro hcontra
      have hc := hcontra.2
      simp [hsoff] at hc
    rw [hfind s hsm]
    simp only [Function.comp_apply, hsw]
    rw [if_neg (by simp [hsn])]

/-- Witness for C4 (amended) at a concrete three-service state. -/
theorem setLock_unlock_effects_witness :
    getSvc (LockService (fun _ _ => none)
        { services := [⟨"x", "x", "", true, true, false, 1, "", ""⟩,
                       ⟨"y", "y", "", true, false, false, 2, "", ""⟩],
          activeService := "" } "x" false).1 "x"
      = some ⟨"x", "x", "", true, false, false, 1, "", ""⟩ := by
  have h := setLock_unlock_effects (fun _ _ => none)
    { services := [⟨"x", "x", "", true, true, false, 1, "", ""⟩,
                   ⟨"y", "y", "", true, false, false, 2, "", ""⟩],
      activeService := "" } "x"
    ⟨"x", "x", "", true, true, false, 1, "", ""⟩ (by decide) rfl
    (fun _ _ => rfl)
  exact h.2.1

/-- C7: DeactivateAll issues a lock call for every online service even
when earlier calls fail (each online service's final entry reflects its
own call's outcome), returns the last encountered error in iteration
order (or success when none failed), leaves offline services untouched,
and unconditionally clears `activeService`, so `GetActiveService`
afterwards returns the empty string. -/
theorem deactivateAll_effects (lockCall : LockOracle) (a : Arbiter)
    (hs : (a.services.map (fun s => s.name)).Nodup) :
    GetActiveService (DeactivateAll lockCall a).1 = ""
    ∧ (∀ s ∈ a.services, s.online = true →
        (lockCall s.name true = none →
          getSvc (DeactivateAll lockCall a).1 s.name
            = some { s with locked := true, error := "" })
        ∧ (∀ e, lockCall s.name true = some e →
          getSvc (DeactivateAll lockCall a).1 s.name = some { s with error := e }))
    ∧ (∀ s ∈ a.services, s.online = false →
        getSvc (DeactivateAll lockCall a).1 s.name = some s)
    ∧ (DeactivateAll lockCall a).2
        = lastOr (a.services.filterMap
            (fun s => if s.online then lockCall s.name true else none)) none := by
  have hserv : (DeactivateAll lockCall a).1.services
      = a.services.map (sweepApply lockCall (fun _ s => s.online)
          (a.services.map (fun s => s.name))) := by
    show ((lockSweep lockCall (fun _ s => s.online)
      (a.services.map (fun s => s.name)) (a, none)).1).services = _
    exact lockSweep_services lockCall _ _ a none hs hs
  have hfind : ∀ s ∈ a.services,
      getSvc (DeactivateAll lockCall a).1 s.name
        = some (sweepApply lockCall (fun _ s => s.online)
            (a.services.map (fun s => s.name)) s) := by
    intro s hsm
    show (DeactivateAll lockCall a).1.services.find? (fun t => t.name == s.name) = _
    rw [hserv]
    exact find?_map_namePreserving _ (sweepApply_name lockCall _ _) a.services hs s hsm
  refine ⟨rfl, ?_, ?_, ?_⟩
  · intro s hsm hson
    have hmemn : s.name ∈ a.services.map (fun t => t.name) :=
      List.mem_map_of_mem (fun t => t.name) hsm
    constructor
    · intro hoc
      rw [hfind s hsm, sweepApply_fired lockCall _ _ s hmemn (by simp [hson]),
        lockApply_self_ok lockCall s hoc]
    · intro e hoc
      rw [hfind s hsm, sweepApply_fired lockCall _ _ s hmemn (by simp [hson]),
        lockApply_self_fail lockCall s e hoc]
  · intro s hsm hsoff
    have hnf : ¬(s.name ∈ a.services.map (fun t => t.name)
        ∧ s.online = true) := by
      intro hcontra
      rw [hsoff] at hcontra
      exact absurd hcontra.2 (by simp)
    rw [hfind s hsm, sweepApply_not_fired lockCall _ _ s hnf]
  · show (lockSweep lockCall (fun _ s => s.online)
      (a.services.map (fun s => s.name)) (a, none)).2 = _
    rw [lockSweep_snd lockCall _ _ a none hs, List.filterMap_map]
    have hcg : ∀ s ∈ a.services,
        ((fun n => match getSvc a n with
          | some t => if t.online then lockCall n true else none
          | none => none) ∘ (fun s : ServiceStatus => s.name)) s
        = (if s.online then lockCall s.name true else none) := by
      intro s hsm
      have hgs : getSvc a s.name = some s := find?_self a.services hs s hsm
      simp only [Function.comp_apply, hgs]
    rw [List.filterMap_congr hcg]

/-- Witness for C7 at a concrete state with one failing and one
succeeding lock call. -/
theorem deactivateAll_effects_witness :
    (DeactivateAll
        (fun n _ => if n == "y" then some "err-y" else none)
        { services := [⟨"y", "y", "", true, false, true, 1, "", ""⟩,
                       ⟨"w", "w", "", true, false, false, 2, "", ""⟩],
          activeService := "y" }).2 = some "err-y"
    ∧ GetActiveService (DeactivateAll
        (fun n _ => if n == "y" then some "err-y" else none)
        { services := [⟨"y", "y", "", true, false, true, 1, "", ""⟩,
                       ⟨"w", "w", "", true, false, false, 2, "", ""⟩],
          activeService := "y" }).1 = "" := by
  have h := deactivateAll_effects
    (fun n _ => if n == "y" then some "err-y" else none)
    { services := [⟨"y", "y", "", true, false, true, 1, "", ""⟩,
                   ⟨"w", "w", "", true, false, false, 2, "", ""⟩],
      activeService := "y" } (by decide)
  refine ⟨?_, h.1⟩
  rw [h.2.2.2]
  rfl

/-- C10 counterexample: with the best-effort lock calls succeeding (the
active service "y" and service "w" both get locked) and the final unlock
of "x" failing, Activate reports the error and the other services stay
locked, but `activeService` is NOT unchanged: it was "y" and is now
empty. -/
theorem activate_not_atomic_counterexample :
    (ActivateService
        (fun n lk => if n == "x" && !lk then some "dial tcp: refused" else none)
        { services := [⟨"x", "x", "", true, true, false, 1, "", ""⟩,
                       ⟨"y", "y", "", true, false, true, 2, "", ""⟩,
                       ⟨"w", "w", "", true, false, false, 3, "", ""⟩],
          activeService := "y" } "x").2
      = some ("failed to unlock service: dial tcp: refused")
    ∧ ((ActivateService
        (fun n lk => if n == "x" && !lk then some "dial tcp: refused" else none)
        { services := [⟨"x", "x", "", true, true, false, 1, "", ""⟩,
                       ⟨"y", "y", "", true, false, true, 2, "", ""⟩,
                       ⟨"w", "w", "", true, false, false, 3, "", ""⟩],
          activeService := "y" } "x").1.services.map (fun s => s.locked))
      = [true, true, true]
    ∧ (ActivateService
        (fun n lk => if n == "x" && !lk then some "dial tcp: refused" else none)
        { services := [⟨"x", "x", "", true, true, false, 1, "", ""⟩,
                       ⟨"y", "y", "", true, false, true, 2, "", ""⟩,
                       ⟨"w", "w", "", true, false, false, 3, "", ""⟩],
          activeService := "y" } "x").1.activeService = ""
    ∧ ({ services := [⟨"x", "x", "", true, true, false, 1, "", ""⟩,
                      ⟨"y", "y", "", true, false, true, 2, "", ""⟩,
                      ⟨"w", "w", "", true, false, false, 3, "", ""⟩],
         activeService := "y" } : Arbiter).activeService = "y" := by
  exact ⟨rfl, rfl, rfl, rfl⟩

/-- C10 (amended): Activate is not atomic on failure: when the
best-effort lock calls on the other online services succeed but the final
unlock of the target fails, Activate returns the error, every other
online service's locked flag has been set to true and remains so, and
`activeService` is not set to the target — it keeps its pre-call value
unless the best-effort phase locked the currently active service, in
which case it is empty. -/
theorem activate_partial_failure (lockCall : LockOracle) (a : Arbiter)
    (name : String) (target : ServiceStatus) (e : String)
    (hs : (a.services.map (fun s => s.name)).Nodup)
    (h : getSvc a name = some target) (hon : target.online = true)
    (hlocks : ∀ s ∈ a.services, s.name ≠ name → s.online = true →
        lockCall s.name true = none)
    (hfail : lockCall name false = some e) :
    (ActivateService lockCall a name).2 = some ("failed to unlock service: " ++ e)
    ∧ (∀ s ∈ a.services, s.name ≠ name → s.online = true →
        getSvc (ActivateService lockCall a name).1 s.name
          = some { s with locked := true, error := "" })
    ∧ ((ActivateService lockCall a name).1.activeService = a.activeService
       ∨ (ActivateService lockCall a name).1.activeService = "") := by
  have hserv : (ActivateService lockCall a name).1.services
      = (a.services.map (sweepApply lockCall (fun n s => n != name && s.online)
          (a.services.map (fun s => s.name)))).map
        (fun s => if s.name == name then { s with error := e } else s) := by
    rw [ActivateService_fail_eq lockCall a name target e h hon hfail,
      lockServiceInternal_services_fail lockCall _ name false e hfail,
      lockSweep_services lockCall _ _ a none hs hs]
  have hFname : ∀ t : ServiceStatus,
      (((fun s => if s.name == name then { s with error := e } else s)
        ∘ (sweepApply lockCall (fun n s => n != name && s.online)
            (a.services.map (fun s => s.name)))) t).name = t.name := by
    intro t
    by_cases hb : ((sweepApply lockCall (fun n s => n != name && s.online)
        (a.services.map (fun s => s.name)) t).name == name) = true
    · simp only [Function.comp_apply, if_pos hb]
      exact sweepApply_name lockCall _ _ t
    · simp only [Function.comp_apply, if_neg hb]
      exact sweepApply_name lockCall _ _ t
  refine ⟨?_, ?_, ?_⟩
  · rw [ActivateService_fail_eq lockCall a name target e h hon hfail]
  · intro s hsm hsn hson
    have hmemn : s.name ∈ a.services.map (fun t => t.name) :=
      List.mem_map_of_mem (fun t => t.name) hsm
    have hfind : getSvc (ActivateService lockCall a name).1 s.name
        = some (((fun s => if s.name == name then { s with error := e } else s)
            ∘ (sweepApply lockCall (fun n s => n != name && s.online)
                (a.services.map (fun s => s.name)))) s) := by
      show (ActivateService lockCall a name).1.services.find?
        (fun t => t.name == s.name) = _
      rw [hserv, List.map_map]
      exact find?_map_namePreserving _ hFname a.services hs s hsm
    have hsw : sweepApply lockCall (fun n s => n != name && s.online)
        (a.services.map (fun s => s.name)) s
        = { s with locked := true, error := "" } := by
      rw [sweepApply_fired lockCall _ _ s hmemn (by simp [hsn, hson])]
      exact lockApply_self_ok lockCall s (hlocks s hsm hsn hson)
    rw [hfind]
    simp only [Function.comp_apply, hsw]
    rw [if_neg (by simp [hsn])]
  · rw [ActivateService_fail_eq lockCall a name target e h hon hfail]
    show ((lockServiceInternal lockCall _ name false).1).activeService = _ ∨ _
    rw [lockServiceInternal_active_unlock]
    exact lockSweep_active_or lockCall (fun n s => n != name && s.online)
      (a.services.map (fun s => s.name)) a none

/-- Witness for C10 (amended) at the concrete three-service state of the
counterexample. -/
theorem activate_partial_failure_witness :
    getSvc (ActivateService
        (fun n lk => if n == "x" && !lk then some "dial tcp: refused" else none)
        { services := [⟨"x", "x", "", true, true, false, 1, "", ""⟩,
                       ⟨"y", "y", "", true, false, true, 2, "", ""⟩,
                       ⟨"w", "w", "", true, false, false, 3, "", ""⟩],
          activeService := "y" } "x").1 "y"
      = some ⟨"y", "y", "", true, true, true, 2, "", ""⟩ := by
  have h := activate_partial_failure
    (fun n lk => if n == "x" && !lk then some "dial tcp: refused" else none)
    { services := [⟨"x", "x", "", true, true, false, 1, "", ""⟩,
                   ⟨"y", "y", "", true, false, true, 2, "", ""⟩,
                   ⟨"w", "w", "", true, false, false, 3, "", ""⟩],
      activeService := "y" } "x"
    ⟨"x", "x", "", true, true, false, 1, "", ""⟩ "dial tcp: refused"
    (by decide) rfl rfl
    (fun s _ hsn _ => by
      have : (s.name == "x") = false := by simp [hsn]
      simp [this])
    rfl
  exact h.2.1 ⟨"y", "y", "", true, false, true, 2, "", ""⟩ (by decide)
    (by decide) rfl

end I2S
